import Mathlib

/-!
# Verification of the `http-jsonrpc-server` request-handling core

This file gives a shallow embedding of the JSON-RPC 2.0 request validation
and dispatch logic of the `http-jsonrpc-server` library, and proves (or
refutes) the specified properties of that logic.

Sources embedded:
- `lib/http-jsonrpc-server.js` — `processRequest`, `setMethod`, constants;
- `reqhandler.js` (the revision using a separate request-handler module) —
  `checkRequest`, `reqHandler`, `sendResponse`/`sendError` outcomes.

Modelling conventions:
- JSON numbers are modelled as integers (`Int`); no claim involves
  non-integer numerics, and floating point is out of scope.
- JavaScript `undefined` (an absent object property) is `Option.none`;
  JSON `null` is the explicit value `JSValue.null`.
- Property access `request.k` is total on every JSON value except `null`:
  objects yield the bound value (keys are assumed unique, as produced by
  `JSON.parse`), all other non-null values yield `undefined`; access on
  `null` throws a `TypeError`, which inside the `async` function becomes a
  rejected promise (modelled by `ProcResult.crash`).
- A handler ("method") is a pure function from the optional `params` value
  to either a result value or a thrown error; synchronous returns and
  resolved promises are joined uniformly by the code (`await
  Promise.resolve(...)`), so one total function models both.
- `JSON.parse` and `JSON.stringify` are platform primitives: the parser is
  passed as an oracle `String → Except String JSValue` (error = the parser
  diagnostic message), and HTTP outcomes carry structured response objects
  rather than serialized strings.
-/

namespace HttpJsonRpc

/-- A JSON value. Numbers are modelled as integers. -/
inductive JSValue where
  | null
  | bool (b : Bool)
  | num (n : Int)
  | str (s : String)
  | arr (elems : List JSValue)
  | obj (fields : List (String × JSValue))

mutual

/-- Boolean equality on JSON values. -/
def beqVal : JSValue → JSValue → Bool
  | .null, .null => true
  | .bool a, .bool b => a == b
  | .num a, .num b => a == b
  | .str a, .str b => a == b
  | .arr a, .arr b => beqValList a b
  | .obj a, .obj b => beqValFields a b
  | _, _ => false

/-- Boolean equality on lists of JSON values. -/
def beqValList : List JSValue → List JSValue → Bool
  | [], [] => true
  | x :: xs, y :: ys => beqVal x y && beqValList xs ys
  | _, _ => false

/-- Boolean equality on object field lists. -/
def beqValFields : List (String × JSValue) → List (String × JSValue) → Bool
  | [], [] => true
  | (k, v) :: xs, (k', v') :: ys => k == k' && beqVal v v' && beqValFields xs ys
  | _, _ => false

end

mutual

theorem beqVal_iff : ∀ (a b : JSValue), beqVal a b = true ↔ a = b
  | .null, b => by cases b <;> simp [beqVal]
  | .bool x, b => by cases b <;> simp [beqVal]
  | .num x, b => by cases b <;> simp [beqVal]
  | .str x, b => by cases b <;> simp [beqVal]
  | .arr xs, b => by
      cases b <;> simp [beqVal]
      exact beqValList_iff xs _
  | .obj xs, b => by
      cases b <;> simp [beqVal]
      exact beqValFields_iff xs _

theorem beqValList_iff : ∀ (a b : List JSValue), beqValList a b = true ↔ a = b
  | [], [] => by simp [beqValList]
  | [], _ :: _ => by simp [beqValList]
  | _ :: _, [] => by simp [beqValList]
  | x :: xs, y :: ys => by
      simp only [beqValList, Bool.and_eq_true, List.cons.injEq]
      rw [beqVal_iff x y, beqValList_iff xs ys]

theorem beqValFields_iff : ∀ (a b : List (String × JSValue)),
    beqValFields a b = true ↔ a = b
  | [], [] => by simp [beqValFields]
  | [], _ :: _ => by simp [beqValFields]
  | _ :: _, [] => by simp [beqValFields]
  | (k, v) :: xs, (k', v') :: ys => by
      simp only [beqValFields, Bool.and_eq_true, List.cons.injEq, Prod.mk.injEq,
        beq_iff_eq]
      rw [beqVal_iff v v', beqValFields_iff xs ys]

end

instance : DecidableEq JSValue := fun a b =>
  decidable_of_iff (beqVal a b = true) (beqVal_iff a b)

namespace JSValue

/-- JavaScript truthiness of a JSON value (`NaN` does not arise: numbers
are integers). -/
def truthy : JSValue → Bool
  | .null => false
  | .bool b => b
  | .num n => n != 0
  | .str s => s != ""
  | .arr _ => true
  | .obj _ => true

/-- `typeof v === 'number'`. -/
def isNum : JSValue → Bool
  | .num _ => true
  | _ => false

/-- `typeof v === 'string'`. -/
def isStr : JSValue → Bool
  | .str _ => true
  | _ => false

/-- `typeof v === 'object'`: JSON `null`, arrays and objects all have
JavaScript type `object`; strings, numbers and booleans do not. -/
def isObjectType : JSValue → Bool
  | .null => true
  | .arr _ => true
  | .obj _ => true
  | _ => false

end JSValue

/-- JavaScript truthiness of a possibly-`undefined` value. -/
def truthyOpt : Option JSValue → Bool
  | none => false
  | some v => v.truthy

/-- First-match lookup in an object's field list (`JSON.parse` produces
objects with unique keys). -/
def lookupField : List (String × JSValue) → String → Option JSValue
  | [], _ => none
  | (k', v) :: rest, k => if k' = k then some v else lookupField rest k

/-- Property access `v.k` on a non-null JSON value: objects consult their
fields, every other non-null value yields `undefined` for the request keys
used here. (Access on `null` throws; the caller models that separately.) -/
def getField (v : JSValue) (k : String) : Option JSValue :=
  match v with
  | .obj fields => lookupField fields k
  | _ => none

/-! ## JavaScript string primitives, over character lists -/

/-- Whitespace as skipped by the JavaScript string functions used here
(the common ASCII whitespace characters). -/
def isJsWhitespaceChar (c : Char) : Bool :=
  c = ' ' || c = '\t' || c = '\n' || c = '\r' || c = '\x0b' || c = '\x0c'

/-- JavaScript `s.startsWith(pre)`, over the character lists. -/
def jsStartsWith (s pre : String) : Bool := pre.data.isPrefixOf s.data

/-- Splitting worker for `s.split(',')`: `acc` holds the current segment
reversed. -/
def splitCommaAux : List Char → List Char → List (List Char)
  | [], acc => [acc.reverse]
  | c :: rest, acc =>
    if c = ',' then acc.reverse :: splitCommaAux rest []
    else splitCommaAux rest (c :: acc)

/-- JavaScript `s.split(',')` (an empty string yields `[""]`). -/
def jsSplitComma (s : String) : List String :=
  (splitCommaAux s.data []).map fun cs => ⟨cs⟩

/-- JavaScript `s.trim()`: strip whitespace from both ends. -/
def jsTrim (s : String) : String :=
  ⟨((s.data.dropWhile isJsWhitespaceChar).reverse.dropWhile
      isJsWhitespaceChar).reverse⟩

/-! ## Error-code constants (`lib/http-jsonrpc-server.js` / `consts.js`) -/

def PARSE_ERROR : Int := -32700
def INVALID_REQUEST : Int := -32600
def METHOD_NOT_FOUND : Int := -32601
def INVALID_PARAMS : Int := -32602
def SERVER_ERROR : Int := -32000
def SERVER_ERROR_MAX : Int := -32099

/-! ## Response objects -/

/-- The `error` member of a JSON-RPC response: `code` is always assigned by
the code; `message` is sometimes omitted (e.g. for `METHOD_NOT_FOUND`).
The message can be a non-string JSON value when a raw thrown value is
propagated. -/
structure RpcError where
  code : Int
  message : Option JSValue
deriving DecidableEq

/-- A JSON-RPC response object as assembled by `processRequest` (the
`jsonrpc: "2.0"` member is always present and is left implicit).
`id = some .null` is an explicitly serialized `"id": null` member, while
`id = none` means the member is absent. -/
structure RpcResponse where
  id : Option JSValue
  result : Option JSValue
  error : Option RpcError
deriving DecidableEq

/-! ## Handlers and the Method Registry -/

/-- A value thrown (or rejected with) by a handler: `message` and `code`
 are the `.message` / `.code` properties of the thrown value (absent =
`none`; `code` is an integer when numeric — JSON-RPC codes are integers),
and `raw` is the thrown value itself, used verbatim when it has no usable
message. -/
structure ThrownErr where
  message : Option String
  code : Option Int
  raw : JSValue

/-- A registered method: a function of the (possibly absent) `params`
value that either returns a result or throws. Synchronous returns and
promises are awaited uniformly by the code, so one total function models
both. -/
def Handler := Option JSValue → Except ThrownErr JSValue

/-- The Method Registry: `name in this.methods` is `(methods name).isSome`
and `this.methods[name]` is `(methods name).get`. -/
def Registry := String → Option Handler

/-- `catch (err) { ... }` branch of `processRequest`: build the response
`error` member from a thrown value.
`const message = err.message || err;` — the `.message` property when
truthy, otherwise the raw thrown value.
`if (err.code && err.code <= SERVER_ERROR && err.code >= SERVER_ERROR_MAX)`
— a truthy numeric `code` within the reserved band is propagated,
anything else falls back to `SERVER_ERROR`. -/
def handlerErrorObj (e : ThrownErr) : RpcError :=
  let message : JSValue :=
    match e.message with
    | some m => if m ≠ "" then .str m else e.raw
    | none => e.raw
  let code : Int :=
    match e.code with
    | some c => if c ≠ 0 ∧ c ≤ SERVER_ERROR ∧ SERVER_ERROR_MAX ≤ c then c else SERVER_ERROR
    | none => SERVER_ERROR
  ⟨code, some message⟩

/-! ## `processRequest` -/

/-- Outcome of `processRequest(request)`:
- `response r` — the promise resolves to the response object `r`;
- `notification` — the promise resolves to a falsy value (`false` /
  `undefined`), meaning no response is to be serialized;
- `crash` — the promise rejects: `request` was JSON `null`, so the very
  first property access `request.id` threw a `TypeError` inside the
  `async` function. -/
inductive ProcResult where
  | crash
  | notification
  | response (r : RpcResponse)
deriving DecidableEq

/-- Is the id of an invalid type?  Inside `if (request.id)`:
`request.id !== null && typeof request.id !== 'number'
 && typeof request.id !== 'string'` (the `!== null` conjunct is vacuous,
since `null` is falsy). -/
def idTypeBad : Option JSValue → Bool
  | some v => !(v.isNum || v.isStr)
  | none => false

/-- Does the params check fail?
`request.params && typeof request.params !== 'object'` -/
def paramsBad : Option JSValue → Bool
  | some v => v.truthy && !v.isObjectType
  | none => false

/-- The resolved handler: `this.methods[request.method]`, guarded by the
same truthy-string / reserved-name checks that `methodBad` performs. -/
def resolveMethod (methods : Registry) : Option JSValue → Option Handler
  | some (.str s) => if s = "" || jsStartsWith s "rpc." then none else methods s
  | _ => none

/-- `RpcServer.processRequest(request)` from `lib/http-jsonrpc-server.js`
(lines 221–286; observably identical to the `if`/`else if` chain of the
later revision in the separate-`reqhandler` snapshot):

1. `if (request.id)` — for a *truthy* id that is neither a number nor a
   string, return `INVALID_REQUEST` "Invalid id" without echoing the id
   (the `request.id !== null` conjunct is vacuous under truthiness);
   otherwise echo the id into the response.
2. `if (request.jsonrpc !== '2.0')` — `INVALID_REQUEST`
   "Invalid jsonrpc value" (id echoed when step 1 stored it).
3. `if (!request.id)` — a falsy id (absent key, `null`, `0`, `""`,
   `false`) makes the call a notification: return nothing.
4. method check — `METHOD_NOT_FOUND`, code only, no message member.
5. params check — `INVALID_PARAMS`, code only.
6. invoke the handler on `request.params`; on success store `result`, on
   throw/reject build the error member via `handlerErrorObj`.

A `request` of JSON `null` crashes (see `ProcResult.crash`); all other
JSON values support the property accesses performed here. -/
def processRequest (methods : Registry) (request : JSValue) : ProcResult :=
  if request = .null then .crash
  else
    let reqId := getField request "id"
    if truthyOpt reqId && idTypeBad reqId then
      .response ⟨none, none, some ⟨INVALID_REQUEST, some (.str "Invalid id")⟩⟩
    else
      let respId := if truthyOpt reqId then reqId else none
      if getField request "jsonrpc" ≠ some (.str "2.0") then
        .response ⟨respId, none, some ⟨INVALID_REQUEST, some (.str "Invalid jsonrpc value")⟩⟩
      else if ¬ truthyOpt reqId then
        .notification
      else
        match resolveMethod methods (getField request "method") with
        | none => .response ⟨respId, none, some ⟨METHOD_NOT_FOUND, none⟩⟩
        | some h =>
          if paramsBad (getField request "params") then
            .response ⟨respId, none, some ⟨INVALID_PARAMS, none⟩⟩
          else
            match h (getField request "params") with
            | .ok r => .response ⟨respId, some r, none⟩
            | .error e => .response ⟨respId, none, some (handlerErrorObj e)⟩

/-! ## Batch handling and the HTTP outcome -/

/-- What the server writes back for one HTTP request:
- `single r` — status 200, body = the serialized response object `r`
  (`sendResponse` with a truthy response);
- `batch rs` — status 200, body = the serialized response array `rs`;
- `noContent` — status 204, `Content-Length: 0`, empty body
  (`sendResponse` with no/falsy response);
- `httpError s m` — `sendError(res, s, m)`: status `s`, body
  `{"error": m}` when a message is given;
- `noReply` — the promise chain rejected before `sendResponse` was ever
  called: nothing is written and the connection is left open. -/
inductive HttpOut where
  | single (r : RpcResponse)
  | batch (rs : List RpcResponse)
  | noContent
  | httpError (statusCode : Nat) (message : Option String)
  | noReply
deriving DecidableEq

/-- The HTTP status line of an outcome (`none` when no response is ever
written). `sendResponse` leaves the default status 200 for a body-bearing
response and sets 204 otherwise. -/
def statusOf : HttpOut → Option Nat
  | .single _ => some 200
  | .batch _ => some 200
  | .noContent => some 204
  | .httpError s _ => some s
  | .noReply => none

/-- `Promise.all(requestPromises)`: resolves to the list of per-element
values (`some r` for a response, `none` for a notification's falsy value)
— unless any element's promise rejected, in which case the whole batch
rejects (`none` overall) and the `.then` continuation never runs. -/
def joinAll : List ProcResult → Option (List (Option RpcResponse))
  | [] => some []
  | .crash :: _ => none
  | .notification :: rest => (joinAll rest).map (none :: ·)
  | .response r :: rest => (joinAll rest).map (some r :: ·)

/-- The pruning loop: `if (responses[n]) prunedResponses.push(responses[n])`
— keep the truthy (actual response) slots, in order. -/
def pruneResponses : List (Option RpcResponse) → List RpcResponse
  | [] => []
  | none :: rest => pruneResponses rest
  | some r :: rest => r :: pruneResponses rest

/-- Dispatch of a successfully parsed JSON body (the tail of the request
listener): an empty array answers with no body; a non-empty array is
processed element-wise via `processRequest` and pruned, an all-notification
batch again answering with no body; a non-array value is processed as a
single request. A rejected promise (JSON `null` request) means
`sendResponse` is never reached. -/
def dispatch (methods : Registry) (parsed : JSValue) : HttpOut :=
  match parsed with
  | .arr [] => .noContent
  | .arr reqs =>
    match joinAll (reqs.map (processRequest methods)) with
    | none => .noReply
    | some responses =>
      let pruned := pruneResponses responses
      if pruned.isEmpty then .noContent else .batch pruned
  | v =>
    match processRequest methods v with
    | .crash => .noReply
    | .notification => .noContent
    | .response r => .single r

/-! ## The HTTP request validator (`checkRequest` in `reqhandler.js`) -/

/-- The inbound HTTP request as seen by the listener: Node normalizes
header names to lower case; an absent header reads as `undefined`. -/
structure HttpReq where
  url : String
  method : String
  contentType : Option String
  accept : Option String
  contentLength : Option String

/-- A transport-level rejection: HTTP status plus optional diagnostic. -/
structure CheckErr where
  statusCode : Nat
  message : Option String
deriving DecidableEq

/-- Fixed diagnostic for a bad `Accept` header
(`consts.INVALID_ACCEPT_HEADER_MSG`). -/
def INVALID_ACCEPT_HEADER_MSG : String := "Accept header must be application/json"

/-- Fixed diagnostic for a bad `Content-Length`
(`consts.INVALID_CONTENT_LENGTH_MSG`). -/
def INVALID_CONTENT_LENGTH_MSG : String := "Invalid Content-Length header"

/-- `parseInt(s, 10)`: skip leading whitespace, take an optional sign and
the maximal run of leading decimal digits (trailing garbage ignored);
`NaN` (here `none`) when no digits are found. `parseInt(undefined, 10)`
is `NaN`, so the caller passes `""` for an absent header. -/
def parseIntJS (s : String) : Option Int :=
  let t := s.data.dropWhile isJsWhitespaceChar
  let signed : Int × List Char :=
    match t with
    | '-' :: r => (-1, r)
    | '+' :: r => (1, r)
    | r => (1, r)
  let digits := signed.2.takeWhile Char.isDigit
  if digits.isEmpty then none
  else some (signed.1 *
    digits.foldl (fun a c => a * 10 + ((c.toNat - 48 : Nat) : Int)) 0)

/-- Does a present `Content-Type` value pass?
`ct === 'application/json' || ct.startsWith('application/json;')` -/
def contentTypeValueOk (ct : String) : Bool :=
  ct = "application/json" || jsStartsWith ct "application/json;"

/-- Does a present `Accept` value pass?
`a === 'application/json' || a.split(',').some(v => {
   const t = v.trim();
   return t === 'application/json' || t.startsWith('application/json;'); })` -/
def acceptValueOk (a : String) : Bool :=
  a = "application/json" ||
    (jsSplitComma a).any fun v =>
      jsTrim v = "application/json" || jsStartsWith (jsTrim v) "application/json;"

/-- Full `Content-Type` gate:
`!req.headers['content-type'] || (… !== 'application/json' && !….startsWith('application/json;'))`
negated — an absent or empty (falsy) header fails. -/
def contentTypeHeaderOk : Option String → Bool
  | some ct => ct != "" && contentTypeValueOk ct
  | none => false

/-- Full `Accept` gate, same shape as the `Content-Type` gate. -/
def acceptHeaderOk : Option String → Bool
  | some a => a != "" && acceptValueOk a
  | none => false

/-- `checkRequest(req, path)` from `reqhandler.js` (lines 28–50): the
transport-level checks, in order, first failure wins:
404 (path), 405 (method), 415 (content type, with `!ct ||` making an
absent or empty header fail), 400 (accept, same falsy guard), 400
(content length not parsing to a non-negative integer; no separate
presence check — `parseInt` of an absent header is `NaN`). -/
def checkRequest (req : HttpReq) (path : String) : Option CheckErr :=
  if req.url ≠ path then some ⟨404, none⟩
  else if req.method ≠ "POST" then some ⟨405, none⟩
  else if !contentTypeHeaderOk req.contentType then some ⟨415, none⟩
  else if !acceptHeaderOk req.accept then
    some ⟨400, some INVALID_ACCEPT_HEADER_MSG⟩
  else
    match parseIntJS (req.contentLength.getD "") with
    | none => some ⟨400, some INVALID_CONTENT_LENGTH_MSG⟩
    | some n => if n < 0 then some ⟨400, some INVALID_CONTENT_LENGTH_MSG⟩ else none

/-- `reqHandler(req, res)` from `reqhandler.js` (lines 52–120): run the
transport checks; then accumulate the streamed body chunks in full
(`Buffer.concat(body).toString()`), re-parse the declared length and
reject with 400 unless `bodyStr.length === reqContentLength`; then
`JSON.parse` the accumulated body (`jsonParse` is the parser oracle),
answering a parse failure with the one explicitly-`null`-id error
response; finally dispatch the parsed value. -/
def reqHandler (methods : Registry) (path : String)
    (jsonParse : String → Except String JSValue)
    (req : HttpReq) (chunks : List String) : HttpOut :=
  match checkRequest req path with
  | some e => .httpError e.statusCode e.message
  | none =>
    let bodyStr := String.join chunks
    if parseIntJS (req.contentLength.getD "") ≠ some (bodyStr.length : Int) then
      .httpError 400 (some INVALID_CONTENT_LENGTH_MSG)
    else
      match jsonParse bodyStr with
      | .error msg =>
        .single ⟨some .null, none, some ⟨PARSE_ERROR, some (.str msg)⟩⟩
      | .ok parsed => dispatch methods parsed

/-! ## `setMethod` and the registry object

The Method Registry is a plain JavaScript object (`this.methods = {}`),
so the write `this.methods[name] = method` carries full object semantics:
for the name `"__proto__"` the assignment does not create an own property
but triggers the inherited `Object.prototype.__proto__` setter, replacing
the registry object's prototype with the assigned function — which in
turn changes what unrelated names the `in` operator resolves.  The model
therefore keeps the object's own-property map and its prototype slot. -/

/-- The argument passed to `setMethod`: either a JavaScript function
(carrying its behaviour as a `Handler`) or any non-function value. -/
inductive MethodArg where
  | func (h : Handler)
  | nonFunc (v : JSValue)

/-- The prototype slot of the registry object.  The registry starts as
the object literal `{}`, whose prototype is `Object.prototype`; an
assignment `this.methods['__proto__'] = method` replaces the prototype
with the assigned handler function.  Those are the only prototypes
reachable in this program (the `__proto__` accessor stays inherited
through any function's chain, so later such assignments replace the
prototype again). -/
inductive RegistryProto where
  | objectProto
  | handlerFunc (h : Handler)

/-- The Method Registry as the JavaScript object it is: its own
properties plus its prototype. -/
structure RegistryObj where
  own : String → Option Handler
  proto : RegistryProto

/-- Own property names of `Object.prototype`, as found by the `in`
operator on a plain `{}` object: the standard function-valued members
plus the `__proto__` accessor. -/
def objectProtoNames : List String :=
  ["constructor", "hasOwnProperty", "isPrototypeOf", "propertyIsEnumerable",
   "toLocaleString", "toString", "valueOf", "__defineGetter__",
   "__defineSetter__", "__lookupGetter__", "__lookupSetter__", "__proto__"]

/-- Names visible by `in` through a handler function installed as the
registry's prototype: every function's own `length` and `name`, the
members of `Function.prototype` (`apply`, `bind`, `call`, `constructor`,
`toString` and the legacy `arguments`/`caller` accessors), and
transitively the `Object.prototype` names.  (`prototype` is omitted:
whether a function owns it depends on its kind.) -/
def handlerFuncNames : List String :=
  ["length", "name", "apply", "bind", "call", "arguments", "caller"]
    ++ objectProtoNames

/-- Does the prototype chain provide property `n`? -/
def RegistryProto.hasName : RegistryProto → String → Bool
  | .objectProto, n => objectProtoNames.contains n
  | .handlerFunc _, n => handlerFuncNames.contains n

/-- The `in` operator on the registry object (`name in this.methods`):
an own property, or one found on the prototype chain. -/
def RegistryObj.resolves (R : RegistryObj) (n : String) : Bool :=
  (R.own n).isSome || R.proto.hasName n

/-- `RpcServer.setMethod(name, method)` on the registry object,
state-passing: the registry object after the call, with the thrown error
message if any.  A non-function argument throws
`Error('method is not a function')` before touching the object.  For a
function argument, `this.methods[name] = method` is an ordinary
own-property write for every name except `"__proto__"`, where the
assignment finds the inherited `Object.prototype.__proto__` setter
(present through every prototype reachable here) and replaces the
registry object's prototype with the assigned function instead, creating
no own binding.  (A state with an *own* `"__proto__"` binding is not
reachable through the server's constructors — object literals never
create one — so the write always takes the setter path on that name.) -/
def setMethod (R : RegistryObj) (name : String) (method : MethodArg) :
    RegistryObj × Option String :=
  match method with
  | .nonFunc _ => (R, some "method is not a function")
  | .func h =>
    if name = "__proto__" then ({ R with proto := .handlerFunc h }, none)
    else ({ R with own := fun n => if n = name then some h else R.own n }, none)

/-! ## Derived views used in the statements -/

/-- The response carried by a settled `processRequest` promise, if any:
`some r` for a response object, `none` for a notification's falsy value. -/
def responseOf : ProcResult → Option RpcResponse
  | .response r => some r
  | _ => none

/-- The per-element responses of a batch as the claims describe them:
each element processed independently by `processRequest`, notification
slots dropped, original order kept. -/
def batchOutcomes (methods : Registry) (reqs : List JSValue) : List RpcResponse :=
  reqs.filterMap fun q => responseOf (processRequest methods q)

/-- The single error response answering an unparseable body:
`{id: null, jsonrpc: "2.0", error: {code: PARSE_ERROR, message: <parser
diagnostic>}}` — the id member is explicitly `null` here. -/
def parseErrorResponse (msg : String) : RpcResponse :=
  ⟨some .null, none, some ⟨PARSE_ERROR, some (.str msg)⟩⟩

/-- Claim-side reading of method-resolution failure (claim C5): the
`method` value is not a non-empty string, or starts with the reserved
`"rpc."` name space, or does not name a key present in the Method
Registry. -/
def methodUnresolvable (methods : Registry) (m : Option JSValue) : Prop :=
  ¬ ∃ s, m = some (.str s) ∧ s ≠ "" ∧ jsStartsWith s "rpc." = false
      ∧ (methods s).isSome = true

/-- Claim-side error-code selection (claim C7): the thrown error's `code`
member when it is a number within the inclusive reserved band
`SERVER_ERROR_MAX ≤ code ≤ SERVER_ERROR`, and `SERVER_ERROR` otherwise. -/
def claimedErrorCode (e : ThrownErr) : Int :=
  match e.code with
  | some c => if SERVER_ERROR_MAX ≤ c ∧ c ≤ SERVER_ERROR then c else SERVER_ERROR
  | none => SERVER_ERROR

/-- Claim-side error message (claim C7): the thrown error's message, or
the raw thrown value when there is no (non-empty) message. -/
def claimedErrorMessage (e : ThrownErr) : JSValue :=
  match e.message with
  | some m => if m = "" then e.raw else .str m
  | none => e.raw

/-- Claim-side acceptance of a `Content-Type` header (claim C8): present,
and equal to `application/json` or beginning with `application/json;`. -/
def contentTypeAcceptable (o : Option String) : Prop :=
  ∃ s, o = some s ∧ (s = "application/json" ∨ jsStartsWith s "application/json;" = true)

/-- Claim-side acceptance of an `Accept` header (claim C8): present, and
either equal to `application/json` or containing `application/json`
(optionally parameter-qualified) as one trimmed element of its
comma-separated list. -/
def acceptAcceptable (o : Option String) : Prop :=
  ∃ s, o = some s ∧ (s = "application/json" ∨
    ∃ part ∈ jsSplitComma s, jsTrim part = "application/json"
      ∨ jsStartsWith (jsTrim part) "application/json;" = true)

/-! ## Concrete fixtures for witnesses and counterexamples -/

/-- A handler that returns the number 7 for any params. -/
def okHandler : Handler := fun _ => .ok (.num 7)

/-- A handler that always throws an error carrying a reserved-band code. -/
def throwingHandler : Handler := fun _ =>
  .error ⟨some "boom", some (-32050), .str "boom"⟩

/-- A registry binding the single method name `"m"` to `okHandler`. -/
def sampleRegistry : Registry := fun n => if n = "m" then some okHandler else none

/-- A registry binding the single method name `"m"` to `throwingHandler`. -/
def throwingRegistry : Registry := fun n =>
  if n = "m" then some throwingHandler else none

/-- The fresh Method Registry object: the plain object literal `{}`. -/
def emptyRegistryObj : RegistryObj := ⟨fun _ => none, .objectProto⟩

/-- `{"jsonrpc":"2.0","id":1,"method":"m"}` -/
def sampleRequest : JSValue :=
  .obj [("jsonrpc", .str "2.0"), ("id", .num 1), ("method", .str "m")]

/-- `{"jsonrpc":"2.0","id":0,"method":"m"}` — a real id of `0`. -/
def requestIdZero : JSValue :=
  .obj [("jsonrpc", .str "2.0"), ("id", .num 0), ("method", .str "m")]

/-- `{"jsonrpc":"1.0"}` — bad version and no `id` member at all. -/
def requestBadVersionNoId : JSValue := .obj [("jsonrpc", .str "1.0")]

/-- `{"jsonrpc":"2.0","id":1,"method":"m","params":0}` — a present,
non-object, falsy `params` value. -/
def requestFalsyParams : JSValue :=
  .obj [("jsonrpc", .str "2.0"), ("id", .num 1), ("method", .str "m"),
    ("params", .num 0)]

/-- `{"jsonrpc":"2.0","method":"m"}` — a notification. -/
def notificationRequest : JSValue :=
  .obj [("jsonrpc", .str "2.0"), ("method", .str "m")]

/-- A well-formed inbound HTTP request for path `/` with
parameter-qualified media types and a declared `Content-Length` of `cl`. -/
def sampleHttpReq (cl : String) : HttpReq :=
  ⟨"/", "POST", some "application/json; charset=utf-8",
    some "text/html, application/json;q=0.9", some cl⟩

/-- A parser oracle that fails on everything with a fixed diagnostic. -/
def failingParser : String → Except String JSValue :=
  fun _ => .error "Unexpected token a in JSON at position 0"

/-- A parser oracle that succeeds on everything with an empty batch. -/
def emptyArrayParser : String → Except String JSValue := fun _ => .ok (.arr [])

/-! ## Helper lemmas -/

theorem truthyOpt_ne_some_null {o : Option JSValue} (h : truthyOpt o = true) :
    o ≠ some .null := by
  intro hn
  rw [hn] at h
  simp [truthyOpt, JSValue.truthy] at h

/-- Every response object produced by `processRequest` carries either no
id member or a truthy id value. -/
theorem processRequest_response_id (methods : Registry) (v : JSValue)
    (r : RpcResponse) (h : processRequest methods v = .response r) :
    r.id = none ∨ ∃ w, r.id = some w ∧ w.truthy = true := by
  unfold processRequest at h
  by_cases hnull : v = JSValue.null
  · simp [hnull] at h
  · rw [if_neg hnull] at h
    by_cases h1 : (truthyOpt (getField v "id") && idTypeBad (getField v "id")) = true
    · rw [if_pos h1] at h
      cases h
      exact Or.inl rfl
    · rw [if_neg h1] at h
      by_cases h3 : truthyOpt (getField v "id") = true
      · have hid : ∃ w, (if truthyOpt (getField v "id") then getField v "id" else none)
            = some w ∧ w.truthy = true := by
          rw [if_pos h3]
          cases ho : getField v "id" with
          | none => rw [ho] at h3; simp [truthyOpt] at h3
          | some w =>
            refine ⟨w, rfl, ?_⟩
            rw [ho] at h3
            simpa [truthyOpt] using h3
        by_cases h2 : getField v "jsonrpc" ≠ some (.str "2.0")
        · rw [if_pos h2] at h
          cases h
          exact Or.inr hid
        · rw [if_neg h2, if_neg (by simp [h3])] at h
          cases hres : resolveMethod methods (getField v "method") with
          | none => rw [hres] at h; cases h; exact Or.inr hid
          | some hf =>
            rw [hres] at h
            dsimp only at h
            by_cases hp : paramsBad (getField v "params") = true
            · rw [if_pos hp] at h; cases h; exact Or.inr hid
            · rw [if_neg hp] at h
              cases hcall : hf (getField v "params") with
              | ok res => rw [hcall] at h; cases h; exact Or.inr hid
              | error e => rw [hcall] at h; cases h; exact Or.inr hid
      · by_cases h2 : getField v "jsonrpc" ≠ some (.str "2.0")
        · rw [if_pos h2] at h
          cases h
          exact Or.inl (by simp [h3])
        · rw [if_neg h2, if_pos (by simp [h3])] at h
          cases h

/-- A `processRequest` promise rejects exactly on the JSON `null` request. -/
theorem processRequest_crash_iff (methods : Registry) (v : JSValue) :
    processRequest methods v = .crash ↔ v = .null := by
  constructor
  · intro h
    by_contra hnull
    unfold processRequest at h
    rw [if_neg hnull] at h
    by_cases h1 : (truthyOpt (getField v "id") && idTypeBad (getField v "id")) = true
    · rw [if_pos h1] at h; cases h
    · rw [if_neg h1] at h
      by_cases h2 : getField v "jsonrpc" ≠ some (.str "2.0")
      · rw [if_pos h2] at h; cases h
      · rw [if_neg h2] at h
        by_cases h3 : truthyOpt (getField v "id") = true
        · rw [if_neg (by simp [h3])] at h
          cases hres : resolveMethod methods (getField v "method") with
          | none => rw [hres] at h; cases h
          | some hf =>
            rw [hres] at h
            dsimp only at h
            by_cases hp : paramsBad (getField v "params") = true
            · rw [if_pos hp] at h; cases h
            · rw [if_neg hp] at h
              cases hcall : hf (getField v "params") with
              | ok res => rw [hcall] at h; cases h
              | error e => rw [hcall] at h; cases h
        · rw [if_pos (by simp [h3])] at h; cases h
  · intro h
    simp [h, processRequest]

theorem joinAll_eq_none_iff (rs : List ProcResult) :
    joinAll rs = none ↔ ProcResult.crash ∈ rs := by
  induction rs with
  | nil => simp [joinAll]
  | cons p rest ih =>
    cases p with
    | crash => simp [joinAll]
    | notification =>
      simp only [joinAll, List.mem_cons]
      cases hj : joinAll rest <;> simp_all
    | response r =>
      simp only [joinAll, List.mem_cons]
      cases hj : joinAll rest <;> simp_all

theorem joinAll_of_no_crash (rs : List ProcResult)
    (h : ProcResult.crash ∉ rs) : joinAll rs = some (rs.map responseOf) := by
  induction rs with
  | nil => simp [joinAll]
  | cons p rest ih =>
    simp only [List.mem_cons, not_or] at h
    cases p with
    | crash => exact absurd rfl h.1
    | notification => simp [joinAll, ih h.2, responseOf]
    | response r => simp [joinAll, ih h.2, responseOf]

theorem pruneResponses_eq_filterMap (l : List (Option RpcResponse)) :
    pruneResponses l = l.filterMap id := by
  induction l with
  | nil => simp [pruneResponses]
  | cons o rest ih => cases o <;> simp [pruneResponses, ih]

/-- For a batch free of `null` elements, the body the server assembles is
exactly `batchOutcomes`: per-element `processRequest`, notifications
dropped, order preserved. -/
theorem dispatch_batch_no_null (methods : Registry) (reqs : List JSValue)
    (hne : reqs ≠ []) (hnn : (JSValue.null : JSValue) ∉ reqs) :
    dispatch methods (.arr reqs) =
      (if batchOutcomes methods reqs = [] then .noContent
       else .batch (batchOutcomes methods reqs)) := by
  have hcrash : ProcResult.crash ∉ reqs.map (processRequest methods) := by
    intro hc
    rcases List.mem_map.mp hc with ⟨q, hq, hpc⟩
    exact hnn (((processRequest_crash_iff methods q).mp hpc) ▸ hq)
  have hjoin := joinAll_of_no_crash _ hcrash
  have hbody : pruneResponses ((reqs.map (processRequest methods)).map responseOf)
      = batchOutcomes methods reqs := by
    rw [pruneResponses_eq_filterMap, List.filterMap_map, List.filterMap_map,
      batchOutcomes]
    simp [Function.comp_def]
  cases reqs with
  | nil => exact absurd rfl hne
  | cons q rest =>
    show (match joinAll ((q :: rest).map (processRequest methods)) with
      | none => HttpOut.noReply
      | some responses =>
        let pruned := pruneResponses responses
        if pruned.isEmpty then HttpOut.noContent else HttpOut.batch pruned) = _
    rw [hjoin]
    dsimp only
    rw [hbody]
    by_cases hb : batchOutcomes methods (q :: rest) = []
    · simp [hb]
    · simp [hb, List.isEmpty_iff]

/-- A batch containing a JSON `null` element never answers: the rejected
element rejects the joined promise and `sendResponse` is unreachable. -/
theorem dispatch_batch_with_null (methods : Registry) (reqs : List JSValue)
    (hmem : (JSValue.null : JSValue) ∈ reqs) :
    dispatch methods (.arr reqs) = .noReply := by
  have hcrash : ProcResult.crash ∈ reqs.map (processRequest methods) :=
    List.mem_map.mpr ⟨.null, hmem, (processRequest_crash_iff methods .null).mpr rfl⟩
  have hjoin := (joinAll_eq_none_iff (reqs.map (processRequest methods))).mpr hcrash
  cases reqs with
  | nil => cases hmem
  | cons q rest =>
    show (match joinAll ((q :: rest).map (processRequest methods)) with
      | none => HttpOut.noReply
      | some responses =>
        let pruned := pruneResponses responses
        if pruned.isEmpty then HttpOut.noContent else HttpOut.batch pruned) = _
    rw [hjoin]

/-! ## Claim C10 -/

/-- Claim C10, counterexample: on the fresh registry `{}` the name
`"call"` does not resolve; calling `setMethod('__proto__', f)` with a
function throws nothing, yet afterwards `"call"` resolves (through
`Function.prototype` of the installed prototype) although no own binding
for it — nor for `"__proto__"` — was created: the call changed the
binding of a *different* name, contradicting the claim that every other
name's handler is left unchanged. -/
theorem claim10_counterexample :
    emptyRegistryObj.resolves "call" = false
    ∧ (setMethod emptyRegistryObj "__proto__" (.func okHandler)).2 = none
    ∧ (setMethod emptyRegistryObj "__proto__" (.func okHandler)).1.resolves "call"
        = true
    ∧ (setMethod emptyRegistryObj "__proto__" (.func okHandler)).1.own "call"
        = none
    ∧ (setMethod emptyRegistryObj "__proto__" (.func okHandler)).1.own "__proto__"
        = none :=
  ⟨rfl, rfl, rfl, rfl, rfl⟩

/-- Claim C10 (amended): `setMethod(name, m)` with `m` not a function
throws `Error('method is not a function')` and returns the Method
Registry completely unchanged.  With a function and a `name` other than
`"__proto__"`, it binds `name` to `m` as an own property (overwriting any
previous handler), keeps the prototype, and leaves every other name's
own binding — and hence its resolution — unchanged, throwing nothing.
With the name `"__proto__"`, however, the assignment triggers the
inherited `Object.prototype.__proto__` setter: no own binding is created
and the registry object's prototype is replaced by `m`, which can change
the resolution of unrelated names. -/
theorem claim10_theorem (R : RegistryObj) (name : String) :
    (∀ v, setMethod R name (.nonFunc v) = (R, some "method is not a function"))
    ∧ (∀ h, name ≠ "__proto__" →
        setMethod R name (.func h)
          = (⟨fun n => if n = name then some h else R.own n, R.proto⟩, none)
        ∧ ∀ n, n ≠ name →
            (setMethod R name (.func h)).1.own n = R.own n
            ∧ (setMethod R name (.func h)).1.resolves n = R.resolves n)
    ∧ (∀ h, setMethod R "__proto__" (.func h)
        = (⟨R.own, .handlerFunc h⟩, none)) := by
  refine ⟨fun _ => rfl, fun h hname => ?_, fun h => ?_⟩
  · have hset : setMethod R name (.func h)
        = (⟨fun n => if n = name then some h else R.own n, R.proto⟩, none) := by
      unfold setMethod
      dsimp only
      rw [if_neg hname]
    refine ⟨hset, fun n hn => ?_⟩
    rw [hset]
    constructor
    · dsimp only
      rw [if_neg hn]
    · dsimp only [RegistryObj.resolves]
      rw [if_neg hn]
  · unfold setMethod
    dsimp only
    rw [if_pos rfl]

/-- Claim C10 witness: on the fresh registry `{}`, a non-function
argument throws and leaves the state untouched, while registering the
name `"m"` stores the handler under `"m"` and leaves the resolution of
the unrelated name `"sum"` unchanged, all via the amended theorem. -/
theorem claim10_theorem_witness :
    setMethod emptyRegistryObj "m" (.nonFunc (.num 5))
      = (emptyRegistryObj, some "method is not a function")
    ∧ (setMethod emptyRegistryObj "m" (.func okHandler)).1.own "m" = some okHandler
    ∧ (setMethod emptyRegistryObj "m" (.func okHandler)).1.resolves "sum"
        = emptyRegistryObj.resolves "sum" := by
  refine ⟨(claim10_theorem emptyRegistryObj "m").1 (.num 5), ?_, ?_⟩
  · have hset := ((claim10_theorem emptyRegistryObj "m").2.1 okHandler
      (by decide)).1
    rw [hset]
    dsimp only
    exact if_pos rfl
  · exact (((claim10_theorem emptyRegistryObj "m").2.1 okHandler
      (by decide)).2 "sum" (by decide)).2

/-! ## Claim C3 -/

/-- Claim C3, counterexample: the element `{"jsonrpc":"2.0","id":1,
"method":"m"}` succeeds on its own with a response, yet the batch pairing
it with the element `null` produces no response at all — the `null`
sibling's rejection aborts the whole batch, contradicting the claim that
one element's failure never aborts sibling elements (the surviving
response array should have contained the first element's response). -/
theorem claim3_counterexample :
    processRequest sampleRegistry sampleRequest
        = .response ⟨some (.num 1), some (.num 7), none⟩
    ∧ dispatch sampleRegistry (.arr [sampleRequest, .null]) = .noReply :=
  ⟨rfl, rfl⟩

/-- Claim C3 (amended): an empty batch answers 204 with an empty body;
a non-empty batch free of JSON `null` elements is processed element-wise
by `processRequest` — independently, notifications dropped, input order
preserved (`batchOutcomes` is compositional under concatenation and acts
element-wise) — answering with an empty body rather than an empty array
when everything was a notification; but a batch containing a JSON `null`
element sends no response at all. -/
theorem claim3_theorem (methods : Registry) (reqs pre post : List JSValue) :
    (dispatch methods (.arr []) = .noContent
      ∧ statusOf (dispatch methods (.arr [])) = some 204)
    ∧ ((JSValue.null : JSValue) ∈ reqs → dispatch methods (.arr reqs) = .noReply)
    ∧ ((JSValue.null : JSValue) ∉ reqs → reqs ≠ [] →
        dispatch methods (.arr reqs) =
          (if batchOutcomes methods reqs = [] then .noContent
           else .batch (batchOutcomes methods reqs)))
    ∧ batchOutcomes methods (pre ++ post)
        = batchOutcomes methods pre ++ batchOutcomes methods post
    ∧ (∀ q, batchOutcomes methods [q]
        = (responseOf (processRequest methods q)).toList) := by
  refine ⟨⟨rfl, rfl⟩, dispatch_batch_with_null methods reqs,
    fun hnn hne => dispatch_batch_no_null methods reqs hne hnn,
    List.filterMap_append _ _ _, fun q => ?_⟩
  simp only [batchOutcomes, List.filterMap]
  cases responseOf (processRequest methods q) <;> rfl

/-- Claim C3 witness: a concrete two-element batch (one real call, one
notification) whose answer is the one-element response array, obtained
through the amended theorem. -/
theorem claim3_theorem_witness :
    dispatch sampleRegistry (.arr [sampleRequest, notificationRequest])
      = .batch [⟨some (.num 1), some (.num 7), none⟩] := by
  have h := (claim3_theorem sampleRegistry
    [sampleRequest, notificationRequest] [] []).2.2.1
  rw [h (by decide) (by decide)]
  decide

/-! ## Claim C1 -/

/-- Claim C1, counterexample: the request
`{"jsonrpc":"2.0","id":0,"method":"m"}` has version `"2.0"`, an `id` key
present with the number `0`, a method that resolves in the registry and
no `params` member (so the shape check passes), yet `processRequest`
returns no response at all — `0` is falsy, so the request is treated as a
notification instead of being answered with a response whose id is `0`. -/
theorem claim1_counterexample :
    processRequest sampleRegistry requestIdZero = .notification := rfl

/-- Claim C1 (amended): for a parsed request object with version `"2.0"`
whose `id` value is *truthy* (a non-zero number or non-empty string, the
only truthy values among the valid id types), a resolvable method and
passing params, the response's `id` member equals the request's `id`
exactly in type and value, whatever the handler does; but a request whose
`id` value is falsy (`0`, `""`, `null`, `false`) is treated as a
notification and gets no response. -/
theorem claim1_theorem (methods : Registry) (fields : List (String × JSValue))
    (idv : JSValue) (hid : getField (.obj fields) "id" = some idv)
    (hver : getField (.obj fields) "jsonrpc" = some (.str "2.0")) :
    (idv.truthy = true → (idv.isNum || idv.isStr) = true →
      ∀ hf, resolveMethod methods (getField (.obj fields) "method") = some hf →
        paramsBad (getField (.obj fields) "params") = false →
        ∃ r, processRequest methods (.obj fields) = .response r ∧ r.id = some idv)
    ∧ (idv.truthy = false → processRequest methods (.obj fields) = .notification) := by
  have hnull : (JSValue.obj fields) ≠ .null := by simp
  constructor
  · intro htruthy htype hf hres hp
    have hone : ¬ (truthyOpt (getField (.obj fields) "id")
        && idTypeBad (getField (.obj fields) "id")) = true := by
      rw [hid]
      simp [truthyOpt, idTypeBad, htype]
    have hthree : truthyOpt (getField (.obj fields) "id") = true := by
      rw [hid]
      simpa [truthyOpt] using htruthy
    have hbody : processRequest methods (.obj fields)
        = match hf (getField (.obj fields) "params") with
          | .ok res => ProcResult.response ⟨some idv, some res, none⟩
          | .error e => ProcResult.response
              ⟨some idv, none, some (handlerErrorObj e)⟩ := by
      unfold processRequest
      rw [if_neg hnull, if_neg hone, if_neg (by rw [hver]; simp),
        if_neg (by simp [hthree]), hres]
      dsimp only
      rw [if_neg (by simp [hp])]
      simp [hid, truthyOpt, htruthy]
    cases hcall : hf (getField (.obj fields) "params") with
    | ok res =>
      rw [hcall] at hbody
      exact ⟨_, hbody, rfl⟩
    | error e =>
      rw [hcall] at hbody
      exact ⟨_, hbody, rfl⟩
  · intro hfalsy
    have hone : ¬ (truthyOpt (getField (.obj fields) "id")
        && idTypeBad (getField (.obj fields) "id")) = true := by
      rw [hid]
      simp [truthyOpt, hfalsy]
    unfold processRequest
    rw [if_neg hnull, if_neg hone, if_neg (by rw [hver]; simp),
      if_pos (by rw [hid]; simp [truthyOpt, hfalsy])]

/-- Claim C1 witness: a concrete request with truthy id `1` is answered
with id `1` echoed, and the concrete request with id `0` is silently
dropped, both via the amended theorem. -/
theorem claim1_theorem_witness :
    (∃ r, processRequest sampleRegistry sampleRequest = .response r
        ∧ r.id = some (.num 1))
    ∧ processRequest sampleRegistry requestIdZero = .notification := by
  constructor
  · exact (claim1_theorem sampleRegistry
        [("jsonrpc", .str "2.0"), ("id", .num 1), ("method", .str "m")]
        (.num 1) rfl rfl).1 rfl rfl okHandler rfl rfl
  · exact (claim1_theorem sampleRegistry
        [("jsonrpc", .str "2.0"), ("id", .num 0), ("method", .str "m")]
        (.num 0) rfl rfl).2 rfl

/-! ## Claim C2 -/

/-- Claim C2, counterexample: the request `{"jsonrpc":"1.0"}` carries no
`id` key at all, yet `processRequest` serializes an `INVALID_REQUEST`
error response for it; and the request `{"jsonrpc":"2.0","id":0,
"method":"m"}` carries the recognizable, non-null, present id `0`, yet no
response is produced.  Both directions of the claimed equivalence fail. -/
theorem claim2_counterexample :
    processRequest sampleRegistry requestBadVersionNoId
      = .response ⟨none, none,
          some ⟨INVALID_REQUEST, some (.str "Invalid jsonrpc value")⟩⟩
    ∧ processRequest sampleRegistry requestIdZero = .notification :=
  ⟨rfl, rfl⟩

/-- Claim C2 (amended): `processRequest` produces a response object for a
parsed request object exactly when the id-type check fails (a truthy id
that is neither a number nor a string), or the `jsonrpc` member is not
`"2.0"`, or the id value is truthy; in particular a request whose id is
falsy (absent, `null`, `0`, `""`) and whose version is `"2.0"` gets no
response regardless of the method's existence, success or failure. -/
theorem claim2_theorem (methods : Registry) (fields : List (String × JSValue)) :
    (∃ r, processRequest methods (.obj fields) = .response r) ↔
      ((truthyOpt (getField (.obj fields) "id")
          && idTypeBad (getField (.obj fields) "id")) = true
        ∨ getField (.obj fields) "jsonrpc" ≠ some (.str "2.0")
        ∨ truthyOpt (getField (.obj fields) "id") = true) := by
  have hnull : (JSValue.obj fields) ≠ .null := by simp
  by_cases h1 : (truthyOpt (getField (.obj fields) "id")
      && idTypeBad (getField (.obj fields) "id")) = true
  · have hbody : processRequest methods (.obj fields) = .response
        ⟨none, none, some ⟨INVALID_REQUEST, some (.str "Invalid id")⟩⟩ := by
      unfold processRequest
      rw [if_neg hnull, if_pos h1]
    rw [hbody]
    simp [h1]
  · by_cases h2 : getField (.obj fields) "jsonrpc" = some (.str "2.0")
    · by_cases h3 : truthyOpt (getField (.obj fields) "id") = true
      · simp only [h3, or_true, iff_true]
        have hbody : processRequest methods (.obj fields) =
            match resolveMethod methods (getField (.obj fields) "method") with
              | none => ProcResult.response
                  ⟨getField (.obj fields) "id", none,
                    some ⟨METHOD_NOT_FOUND, none⟩⟩
              | some hf =>
                if paramsBad (getField (.obj fields) "params") = true then
                  ProcResult.response
                    ⟨getField (.obj fields) "id", none,
                      some ⟨INVALID_PARAMS, none⟩⟩
                else
                  match hf (getField (.obj fields) "params") with
                  | .ok res => ProcResult.response
                      ⟨getField (.obj fields) "id", some res, none⟩
                  | .error e => ProcResult.response
                      ⟨getField (.obj fields) "id", none,
                        some (handlerErrorObj e)⟩ := by
          unfold processRequest
          rw [if_neg hnull, if_neg h1, if_neg (by rw [h2]; simp),
            if_neg (by simp [h3])]
          simp [h3]
        rw [hbody]
        cases resolveMethod methods (getField (.obj fields) "method") with
        | none => exact ⟨_, rfl⟩
        | some hf =>
          dsimp only
          by_cases hp : paramsBad (getField (.obj fields) "params") = true
          · rw [if_pos hp]; exact ⟨_, rfl⟩
          · rw [if_neg hp]
            cases hf (getField (.obj fields) "params") with
            | ok res => exact ⟨_, rfl⟩
            | error e => exact ⟨_, rfl⟩
      · have hbody : processRequest methods (.obj fields) = .notification := by
          unfold processRequest
          rw [if_neg hnull, if_neg h1, if_neg (by rw [h2]; simp),
            if_pos (by simp [h3])]
        rw [hbody]
        simp [h1, h2, h3]
    · have hbody : processRequest methods (.obj fields) = .response
          ⟨if truthyOpt (getField (.obj fields) "id") = true
            then getField (.obj fields) "id" else none, none,
            some ⟨INVALID_REQUEST, some (.str "Invalid jsonrpc value")⟩⟩ := by
        unfold processRequest
        rw [if_neg hnull, if_neg h1, if_pos h2]
      rw [hbody]
      simp [h2]

/-- Claim C2 witness: the amended equivalence evaluated at the concrete
id-less wrong-version request, which is answered because its version
check fails even though it carries no id. -/
theorem claim2_theorem_witness :
    ∃ r, processRequest sampleRegistry (.obj [("jsonrpc", .str "1.0")])
      = .response r :=
  (claim2_theorem sampleRegistry [("jsonrpc", .str "1.0")]).mpr
    (Or.inr (Or.inl (by decide)))

/-! ## Claim C4 -/

theorem joinAll_eq_some (rs : List ProcResult) (out : List (Option RpcResponse))
    (h : joinAll rs = some out) : out = rs.map responseOf := by
  have hcrash : ProcResult.crash ∉ rs := by
    intro hc
    rw [(joinAll_eq_none_iff rs).mpr hc] at h
    cases h
  rw [joinAll_of_no_crash rs hcrash] at h
  exact (Option.some.inj h).symm

theorem responseOf_eq_some {p : ProcResult} {r : RpcResponse}
    (h : responseOf p = some r) : p = .response r := by
  cases p with
  | crash => cases h
  | notification => cases h
  | response r' => cases h; rfl

/-- Inversion: a single (non-array) body can only answer with a response
object coming straight out of `processRequest`. -/
theorem dispatch_single_inv (methods : Registry) (parsed : JSValue)
    (r : RpcResponse) (h : dispatch methods parsed = .single r) :
    processRequest methods parsed = .response r := by
  cases parsed with
  | arr reqs =>
    cases reqs with
    | nil => cases h
    | cons q rest =>
      revert h
      show (match joinAll ((q :: rest).map (processRequest methods)) with
        | none => HttpOut.noReply
        | some responses =>
          let pruned := pruneResponses responses
          if pruned.isEmpty then HttpOut.noContent else HttpOut.batch pruned) =
          HttpOut.single r → _
      cases joinAll ((q :: rest).map (processRequest methods)) with
      | none => intro h; cases h
      | some responses =>
        dsimp only
        intro h
        by_cases he : (pruneResponses responses).isEmpty = true
        · rw [if_pos he] at h; cases h
        · rw [if_neg he] at h; cases h
  | null =>
    revert h
    show (match processRequest methods .null with
      | .crash => HttpOut.noReply
      | .notification => HttpOut.noContent
      | .response r' => HttpOut.single r') = HttpOut.single r → _
    cases hpr : processRequest methods .null <;> intro h <;> cases h
    rfl
  | bool b =>
    revert h
    show (match processRequest methods (.bool b) with
      | .crash => HttpOut.noReply
      | .notification => HttpOut.noContent
      | .response r' => HttpOut.single r') = HttpOut.single r → _
    cases hpr : processRequest methods (.bool b) <;> intro h <;> cases h
    rfl
  | num n =>
    revert h
    show (match processRequest methods (.num n) with
      | .crash => HttpOut.noReply
      | .notification => HttpOut.noContent
      | .response r' => HttpOut.single r') = HttpOut.single r → _
    cases hpr : processRequest methods (.num n) <;> intro h <;> cases h
    rfl
  | str s =>
    revert h
    show (match processRequest methods (.str s) with
      | .crash => HttpOut.noReply
      | .notification => HttpOut.noContent
      | .response r' => HttpOut.single r') = HttpOut.single r → _
    cases hpr : processRequest methods (.str s) <;> intro h <;> cases h
    rfl
  | obj fields =>
    revert h
    show (match processRequest methods (.obj fields) with
      | .crash => HttpOut.noReply
      | .notification => HttpOut.noContent
      | .response r' => HttpOut.single r') = HttpOut.single r → _
    cases hpr : processRequest methods (.obj fields) <;> intro h <;> cases h
    rfl

/-- Inversion: every element of a batch answer comes straight out of
`processRequest` on some batch element. -/
theorem dispatch_batch_inv (methods : Registry) (parsed : JSValue)
    (rs : List RpcResponse) (r : RpcResponse)
    (h : dispatch methods parsed = .batch rs) (hmem : r ∈ rs) :
    ∃ q, processRequest methods q = .response r := by
  cases parsed with
  | arr reqs =>
    cases reqs with
    | nil => cases h
    | cons q rest =>
      revert h
      show (match joinAll ((q :: rest).map (processRequest methods)) with
        | none => HttpOut.noReply
        | some responses =>
          let pruned := pruneResponses responses
          if pruned.isEmpty then HttpOut.noContent else HttpOut.batch pruned) =
          HttpOut.batch rs → _
      cases hj : joinAll ((q :: rest).map (processRequest methods)) with
      | none => intro h; cases h
      | some responses =>
        dsimp only
        intro h
        by_cases he : (pruneResponses responses).isEmpty = true
        · rw [if_pos he] at h; cases h
        · rw [if_neg he] at h
          cases h
          have hresp := joinAll_eq_some _ _ hj
          rw [hresp, pruneResponses_eq_filterMap] at hmem
          rcases List.mem_filterMap.mp hmem with ⟨o, ho, hor⟩
          rcases List.mem_map.mp ho with ⟨p, hp, hpo⟩
          rcases List.mem_map.mp hp with ⟨q', _, hq'⟩
          refine ⟨q', ?_⟩
          apply responseOf_eq_some
          rw [hq', hpo]
          exact hor
  | null =>
    revert h
    show (match processRequest methods .null with
      | .crash => HttpOut.noReply
      | .notification => HttpOut.noContent
      | .response r' => HttpOut.single r') = HttpOut.batch rs → _
    cases processRequest methods .null <;> intro h <;> cases h
  | bool b =>
    revert h
    show (match processRequest methods (.bool b) with
      | .crash => HttpOut.noReply
      | .notification => HttpOut.noContent
      | .response r' => HttpOut.single r') = HttpOut.batch rs → _
    cases processRequest methods (.bool b) <;> intro h <;> cases h
  | num n =>
    revert h
    show (match processRequest methods (.num n) with
      | .crash => HttpOut.noReply
      | .notification => HttpOut.noContent
      | .response r' => HttpOut.single r') = HttpOut.batch rs → _
    cases processRequest methods (.num n) <;> intro h <;> cases h
  | str s =>
    revert h
    show (match processRequest methods (.str s) with
      | .crash => HttpOut.noReply
      | .notification => HttpOut.noContent
      | .response r' => HttpOut.single r') = HttpOut.batch rs → _
    cases processRequest methods (.str s) <;> intro h <;> cases h
  | obj fields =>
    revert h
    show (match processRequest methods (.obj fields) with
      | .crash => HttpOut.noReply
      | .notification => HttpOut.noContent
      | .response r' => HttpOut.single r') = HttpOut.batch rs → _
    cases processRequest methods (.obj fields) <;> intro h <;> cases h

/-- Claim C4: a request body that fails JSON parsing is answered with
HTTP 200 and the single error response `{id: null, jsonrpc: "2.0",
error: {code: -32700, message: <parser diagnostic>}}`; and this is the
only case in which a response carries an explicit `id: null` — every
response object built by `processRequest` (whether answered singly or
inside a batch array) has an id member different from an explicit
`null`. -/
theorem claim4_theorem (methods : Registry) (path : String)
    (jsonParse : String → Except String JSValue) (req : HttpReq)
    (chunks : List String) (msg : String)
    (hcheck : checkRequest req path = none)
    (hlen : parseIntJS (req.contentLength.getD "")
      = some ((String.join chunks).length : Int)) :
    (jsonParse (String.join chunks) = .error msg →
      reqHandler methods path jsonParse req chunks
          = .single (parseErrorResponse msg)
        ∧ statusOf (reqHandler methods path jsonParse req chunks) = some 200)
    ∧ (∀ v r, processRequest methods v = .response r → r.id ≠ some .null)
    ∧ (∀ r, reqHandler methods path jsonParse req chunks = .single r →
        r.id = some .null →
        ∃ m, jsonParse (String.join chunks) = .error m ∧ r = parseErrorResponse m)
    ∧ (∀ rs r, reqHandler methods path jsonParse req chunks = .batch rs →
        r ∈ rs → r.id ≠ some .null) := by
  have hnever : ∀ v r, processRequest methods v = .response r →
      r.id ≠ some JSValue.null := by
    intro v r hpr hcontra
    rcases processRequest_response_id methods v r hpr with h0 | ⟨w, hw, hwt⟩
    · rw [h0] at hcontra; cases hcontra
    · rw [hw] at hcontra
      cases Option.some.inj hcontra
      simp [JSValue.truthy] at hwt
  have hstep : reqHandler methods path jsonParse req chunks =
      match jsonParse (String.join chunks) with
      | .error m => .single ⟨some .null, none, some ⟨PARSE_ERROR, some (.str m)⟩⟩
      | .ok parsed => dispatch methods parsed := by
    unfold reqHandler
    rw [hcheck]
    dsimp only
    rw [if_neg (by rw [hlen]; simp)]
  refine ⟨?_, hnever, ?_, ?_⟩
  · intro hperr
    rw [hstep, hperr]
    exact ⟨rfl, rfl⟩
  · intro r hr hid
    rw [hstep] at hr
    cases hp : jsonParse (String.join chunks) with
    | error m =>
      rw [hp] at hr
      cases hr
      exact ⟨m, rfl, rfl⟩
    | ok parsed =>
      rw [hp] at hr
      exact absurd hid (hnever _ _ (dispatch_single_inv methods parsed r hr))
  · intro rs r hb hmem
    rw [hstep] at hb
    cases hp : jsonParse (String.join chunks) with
    | error m => rw [hp] at hb; cases hb
    | ok parsed =>
      rw [hp] at hb
      rcases dispatch_batch_inv methods parsed rs r hb hmem with ⟨q, hq⟩
      exact hnever q r hq

/-- Claim C4 witness: a concrete well-formed request whose 7-byte body
fails to parse is answered 200 with the explicit-`null`-id `-32700`
response, via the claim theorem. -/
theorem claim4_theorem_witness :
    reqHandler sampleRegistry "/" failingParser (sampleHttpReq "7") ["nonjson"]
        = .single (parseErrorResponse "Unexpected token a in JSON at position 0")
      ∧ statusOf (reqHandler sampleRegistry "/" failingParser
          (sampleHttpReq "7") ["nonjson"]) = some 200 :=
  (claim4_theorem sampleRegistry "/" failingParser (sampleHttpReq "7")
    ["nonjson"] "Unexpected token a in JSON at position 0"
    (by decide) (by decide)).1 rfl

/-! ## Claim C5 -/

/-- The claim-side method-resolution predicate coincides with the code's
resolution coming up empty. -/
theorem methodUnresolvable_iff (methods : Registry) (m : Option JSValue) :
    methodUnresolvable methods m ↔ resolveMethod methods m = none := by
  cases m with
  | none =>
    simp only [methodUnresolvable, resolveMethod, iff_true]
    rintro ⟨s, hs, -⟩
    cases hs
  | some v =>
    cases v with
    | str s =>
      simp only [methodUnresolvable, resolveMethod]
      by_cases hni : (s = "" || jsStartsWith s "rpc.") = true
      · rw [if_pos hni]
        simp only [iff_true]
        rintro ⟨s', hs', hne, hpre, -⟩
        cases Option.some.inj hs'
        rcases Bool.or_eq_true_iff.mp hni with he | hp
        · exact hne (by simpa using he)
        · rw [hp] at hpre; cases hpre
      · rw [if_neg hni]
        simp only [Bool.or_eq_true_iff, not_or] at hni
        constructor
        · intro hno
          cases hm : methods s with
          | none => rfl
          | some hf =>
            exact absurd ⟨s, rfl, by simpa using hni.1,
              by simpa using hni.2, by rw [hm]; rfl⟩ hno
        · intro hnone
          rintro ⟨s', hs', -, -, hsome⟩
          cases Option.some.inj hs'
          rw [hnone] at hsome
          cases hsome
    | null =>
      simp only [methodUnresolvable, resolveMethod, iff_true]
      rintro ⟨s, hs, -⟩
      cases Option.some.inj hs
    | bool b =>
      simp only [methodUnresolvable, resolveMethod, iff_true]
      rintro ⟨s, hs, -⟩
      cases Option.some.inj hs
    | num n =>
      simp only [methodUnresolvable, resolveMethod, iff_true]
      rintro ⟨s, hs, -⟩
      cases Option.some.inj hs
    | arr elems =>
      simp only [methodUnresolvable, resolveMethod, iff_true]
      rintro ⟨s, hs, -⟩
      cases Option.some.inj hs
    | obj fields =>
      simp only [methodUnresolvable, resolveMethod, iff_true]
      rintro ⟨s, hs, -⟩
      cases Option.some.inj hs

/-- Claim C5: a request that passes the id, version and notification
checks but whose `method` value is not a non-empty string, or starts with
`"rpc."`, or is not a key of the Method Registry, is answered with an
error of code `-32601` (`METHOD_NOT_FOUND`) whose error object has no
`message` member. -/
theorem claim5_theorem (methods : Registry) (fields : List (String × JSValue))
    (idv : JSValue) (hid : getField (.obj fields) "id" = some idv)
    (htruthy : idv.truthy = true) (htype : (idv.isNum || idv.isStr) = true)
    (hver : getField (.obj fields) "jsonrpc" = some (.str "2.0"))
    (hm : methodUnresolvable methods (getField (.obj fields) "method")) :
    processRequest methods (.obj fields)
      = .response ⟨some idv, none, some ⟨METHOD_NOT_FOUND, none⟩⟩ := by
  have hnull : (JSValue.obj fields) ≠ .null := by simp
  have hone : ¬ (truthyOpt (getField (.obj fields) "id")
      && idTypeBad (getField (.obj fields) "id")) = true := by
    rw [hid]
    simp [truthyOpt, idTypeBad, htype]
  have hthree : truthyOpt (getField (.obj fields) "id") = true := by
    rw [hid]
    simpa [truthyOpt] using htruthy
  have hres := (methodUnresolvable_iff methods
    (getField (.obj fields) "method")).mp hm
  unfold processRequest
  rw [if_neg hnull, if_neg hone, if_neg (by rw [hver]; simp),
    if_neg (by simp [hthree]), hres]
  dsimp only
  rw [hid]
  simp [truthyOpt, htruthy]

/-- Claim C5 witness: `{"jsonrpc":"2.0","id":2,"method":123}` — a numeric
method value — is answered `-32601` with no message member, via the claim
theorem. -/
theorem claim5_theorem_witness :
    processRequest sampleRegistry
        (.obj [("jsonrpc", .str "2.0"), ("id", .num 2), ("method", .num 123)])
      = .response ⟨some (.num 2), none, some ⟨METHOD_NOT_FOUND, none⟩⟩ :=
  claim5_theorem sampleRegistry
    [("jsonrpc", .str "2.0"), ("id", .num 2), ("method", .num 123)]
    (.num 2) rfl rfl rfl rfl
    (by rintro ⟨s, hs, -⟩; exact absurd (Option.some.inj hs) (by simp))

/-! ## Claim C6 -/

/-- Claim C6, counterexample: in `{"jsonrpc":"2.0","id":1,"method":"m",
"params":0}` the `params` key is present with the number `0` — not of
type object — yet the code answers with the handler's result instead of
an `INVALID_PARAMS` error: `0` is falsy, so
`request.params && typeof request.params !== 'object'` skips the check
and the handler is invoked. -/
theorem claim6_counterexample :
    processRequest sampleRegistry requestFalsyParams
      = .response ⟨some (.num 1), some (.num 7), none⟩ := rfl

/-- Claim C6 (amended): for a request passing the id, version,
notification and method checks whose `params` key is present, a *truthy*
non-object `params` value (any non-empty string, non-zero number, or
`true`) is answered with error code `-32602` without invoking the
handler; but a falsy `params` value (`0`, `""`, `false`) bypasses the
check and is passed to the handler. -/
theorem claim6_theorem (methods : Registry) (fields : List (String × JSValue))
    (idv pv : JSValue) (hid : getField (.obj fields) "id" = some idv)
    (htruthy : idv.truthy = true) (htype : (idv.isNum || idv.isStr) = true)
    (hver : getField (.obj fields) "jsonrpc" = some (.str "2.0"))
    (hf : Handler)
    (hres : resolveMethod methods (getField (.obj fields) "method") = some hf)
    (hp : getField (.obj fields) "params" = some pv) :
    (pv.truthy = true → pv.isObjectType = false →
      processRequest methods (.obj fields)
        = .response ⟨some idv, none, some ⟨INVALID_PARAMS, none⟩⟩)
    ∧ (pv.truthy = false →
      processRequest methods (.obj fields)
        = match hf (some pv) with
          | .ok res => .response ⟨some idv, some res, none⟩
          | .error e => .response ⟨some idv, none, some (handlerErrorObj e)⟩) := by
  have hnull : (JSValue.obj fields) ≠ .null := by simp
  have hone : ¬ (truthyOpt (getField (.obj fields) "id")
      && idTypeBad (getField (.obj fields) "id")) = true := by
    rw [hid]
    simp [truthyOpt, idTypeBad, htype]
  have hthree : truthyOpt (getField (.obj fields) "id") = true := by
    rw [hid]
    simpa [truthyOpt] using htruthy
  constructor
  · intro hpt hpo
    unfold processRequest
    rw [if_neg hnull, if_neg hone, if_neg (by rw [hver]; simp),
      if_neg (by simp [hthree]), hres]
    dsimp only
    rw [if_pos (by rw [hp]; simp [paramsBad, hpt, hpo]), hid]
    simp [truthyOpt, htruthy]
  · intro hpf
    unfold processRequest
    rw [if_neg hnull, if_neg hone, if_neg (by rw [hver]; simp),
      if_neg (by simp [hthree]), hres]
    dsimp only
    rw [if_neg (by rw [hp]; simp [paramsBad, hpf]), hp]
    simp [hid, truthyOpt, htruthy]

/-- Claim C6 witness: a truthy string `params` (`"bad"`) is answered
`-32602`, while the falsy `params` value `0` reaches the handler and is
answered with its result, both via the amended theorem. -/
theorem claim6_theorem_witness :
    processRequest sampleRegistry
        (.obj [("jsonrpc", .str "2.0"), ("id", .num 3), ("method", .str "m"),
          ("params", .str "bad")])
      = .response ⟨some (.num 3), none, some ⟨INVALID_PARAMS, none⟩⟩
    ∧ processRequest sampleRegistry requestFalsyParams
      = .response ⟨some (.num 1), some (.num 7), none⟩ := by
  constructor
  · exact (claim6_theorem sampleRegistry
      [("jsonrpc", .str "2.0"), ("id", .num 3), ("method", .str "m"),
        ("params", .str "bad")]
      (.num 3) (.str "bad") rfl rfl rfl rfl okHandler rfl rfl).1 rfl rfl
  · exact (claim6_theorem sampleRegistry
      [("jsonrpc", .str "2.0"), ("id", .num 1), ("method", .str "m"),
        ("params", .num 0)]
      (.num 1) (.num 0) rfl rfl rfl rfl okHandler rfl rfl).2 rfl

/-! ## Claim C7 -/

/-- The error object the code builds from a thrown value is exactly the
claim-side one: the band check matches (`code != 0` is subsumed by the
band, which contains only negative numbers) and so does the message
fallback. -/
theorem handlerErrorObj_eq_claimed (e : ThrownErr) :
    handlerErrorObj e = ⟨claimedErrorCode e, some (claimedErrorMessage e)⟩ := by
  obtain ⟨msg, code, raw⟩ := e
  unfold handlerErrorObj claimedErrorCode claimedErrorMessage
  dsimp only
  have hcode : (match code with
      | some c =>
        if c ≠ 0 ∧ c ≤ SERVER_ERROR ∧ SERVER_ERROR_MAX ≤ c then c
        else SERVER_ERROR
      | none => SERVER_ERROR)
      = (match code with
      | some c =>
        if SERVER_ERROR_MAX ≤ c ∧ c ≤ SERVER_ERROR then c else SERVER_ERROR
      | none => SERVER_ERROR) := by
    cases code with
    | none => rfl
    | some c =>
      dsimp only
      by_cases hband : SERVER_ERROR_MAX ≤ c ∧ c ≤ SERVER_ERROR
      · have hc0 : c ≠ 0 := by
          have h2 := hband.2
          unfold SERVER_ERROR at h2
          omega
        rw [if_pos ⟨hc0, hband.2, hband.1⟩, if_pos hband]
      · have hno : ¬ (c ≠ 0 ∧ c ≤ SERVER_ERROR ∧ SERVER_ERROR_MAX ≤ c) := by
          rintro ⟨-, h1, h2⟩
          exact hband ⟨h2, h1⟩
        rw [if_neg hno, if_neg hband]
  have hmsg : (match msg with
      | some m => if m ≠ "" then JSValue.str m else raw
      | none => raw)
      = (match msg with
      | some m => if m = "" then raw else JSValue.str m
      | none => raw) := by
    cases msg with
    | none => rfl
    | some m =>
      dsimp only
      by_cases hm : m = ""
      · rw [if_neg (not_not_intro hm), if_pos hm]
      · rw [if_pos hm, if_neg hm]
  rw [hcode, hmsg]

/-- Claim C7: when the resolved handler of a non-notification request
throws or rejects, the response's error `message` is the thrown error's
message (or the raw thrown value when it has none), and its `code` is the
thrown error's `code` member when that is a number inside the inclusive
band `-32099 ≤ code ≤ -32000`, and `-32000` otherwise. -/
theorem claim7_theorem (methods : Registry) (fields : List (String × JSValue))
    (idv : JSValue) (hid : getField (.obj fields) "id" = some idv)
    (htruthy : idv.truthy = true) (htype : (idv.isNum || idv.isStr) = true)
    (hver : getField (.obj fields) "jsonrpc" = some (.str "2.0"))
    (hf : Handler)
    (hres : resolveMethod methods (getField (.obj fields) "method") = some hf)
    (hp : paramsBad (getField (.obj fields) "params") = false)
    (e : ThrownErr) (hcall : hf (getField (.obj fields) "params") = .error e) :
    processRequest methods (.obj fields)
      = .response ⟨some idv, none,
          some ⟨claimedErrorCode e, some (claimedErrorMessage e)⟩⟩ := by
  have hnull : (JSValue.obj fields) ≠ .null := by simp
  have hone : ¬ (truthyOpt (getField (.obj fields) "id")
      && idTypeBad (getField (.obj fields) "id")) = true := by
    rw [hid]
    simp [truthyOpt, idTypeBad, htype]
  have hthree : truthyOpt (getField (.obj fields) "id") = true := by
    rw [hid]
    simpa [truthyOpt] using htruthy
  unfold processRequest
  rw [if_neg hnull, if_neg hone, if_neg (by rw [hver]; simp),
    if_neg (by simp [hthree]), hres]
  dsimp only
  rw [if_neg (by simp [hp]), hcall]
  dsimp only
  rw [handlerErrorObj_eq_claimed, hid]
  simp [truthyOpt, htruthy]

/-- Claim C7 witness: a handler throwing `{message: "boom", code: -32050}`
(inside the reserved band) is answered with code `-32050` and message
`"boom"`, via the claim theorem. -/
theorem claim7_theorem_witness :
    processRequest throwingRegistry
        (.obj [("jsonrpc", .str "2.0"), ("id", .num 12), ("method", .str "m")])
      = .response ⟨some (.num 12), none,
          some ⟨-32050, some (.str "boom")⟩⟩ := by
  have h := claim7_theorem throwingRegistry
    [("jsonrpc", .str "2.0"), ("id", .num 12), ("method", .str "m")]
    (.num 12) rfl rfl rfl rfl throwingHandler rfl rfl
    ⟨some "boom", some (-32050), .str "boom"⟩ rfl
  rw [h]
  rfl

/-! ## Claim C8 -/

/-- The code's boolean `Content-Type` gate coincides with the claim-side
acceptance predicate (an empty header value is rejected by both: it is
falsy for the code, and neither equal to nor an extension of
`application/json` for the claim). -/
theorem contentTypeBool_iff (o : Option String) :
    contentTypeHeaderOk o = true ↔ contentTypeAcceptable o := by
  cases o with
  | none =>
    simp only [contentTypeHeaderOk, Bool.false_eq_true, false_iff,
      contentTypeAcceptable]
    rintro ⟨s, hs, -⟩
    cases hs
  | some ct =>
    simp only [contentTypeHeaderOk, contentTypeAcceptable, Option.some.injEq]
    by_cases hct : ct = ""
    · subst hct
      constructor
      · intro h
        exact absurd h (by decide)
      · rintro ⟨s, hs, hv⟩
        cases hs
        revert hv
        decide
    · simp [contentTypeValueOk, hct]

/-- The code's boolean `Accept` gate coincides with the claim-side
acceptance predicate. -/
theorem acceptBool_iff (o : Option String) :
    acceptHeaderOk o = true ↔ acceptAcceptable o := by
  cases o with
  | none =>
    simp only [acceptHeaderOk, Bool.false_eq_true, false_iff, acceptAcceptable]
    rintro ⟨s, hs, -⟩
    cases hs
  | some a =>
    simp only [acceptHeaderOk, acceptAcceptable, Option.some.injEq]
    by_cases ha : a = ""
    · subst ha
      constructor
      · intro h
        exact absurd h (by decide)
      · rintro ⟨s, hs, hv⟩
        cases hs
        revert hv
        decide
    · simp [acceptValueOk, ha, List.any_eq_true]

/-- Claim C8: on the configured path with method POST, the validator
answers 415 exactly when the `Content-Type` header is not present-and-
acceptable (equal to `application/json` or `application/json;`-prefixed);
with an acceptable content type it answers 400 with the fixed Accept
diagnostic exactly when the `Accept` header is not present-and-acceptable
(equal to `application/json`, or listing `application/json` — optionally
parameter-qualified — as one trimmed comma-separated element); the
earlier checks (wrong path → 404, non-POST → 405) fire first. -/
theorem claim8_theorem (req : HttpReq) (path : String) :
    (req.url ≠ path → checkRequest req path = some ⟨404, none⟩)
    ∧ (req.url = path → req.method ≠ "POST" →
        checkRequest req path = some ⟨405, none⟩)
    ∧ (req.url = path → req.method = "POST" →
        (checkRequest req path = some ⟨415, none⟩ ↔
          ¬ contentTypeAcceptable req.contentType))
    ∧ (req.url = path → req.method = "POST" →
        contentTypeAcceptable req.contentType →
        (checkRequest req path = some ⟨400, some INVALID_ACCEPT_HEADER_MSG⟩ ↔
          ¬ acceptAcceptable req.accept)) := by
  refine ⟨?_, ?_, ?_, ?_⟩
  · intro hurl
    unfold checkRequest
    rw [if_pos hurl]
  · intro hurl hm
    unfold checkRequest
    rw [if_neg (not_not_intro hurl), if_pos hm]
  · intro hurl hm
    unfold checkRequest
    rw [if_neg (not_not_intro hurl), if_neg (not_not_intro hm)]
    by_cases hct : contentTypeHeaderOk req.contentType = true
    · rw [if_neg (by simp [hct])]
      constructor
      · intro habs
        exfalso
        revert habs
        by_cases hacc : acceptHeaderOk req.accept = true
        · rw [if_neg (by simp [hacc])]
          rcases parseIntJS (req.contentLength.getD "") with _ | n <;> dsimp only
          · intro habs
            simp at habs
          · by_cases hneg : n < 0
            · rw [if_pos hneg]
              intro habs
              simp at habs
            · rw [if_neg hneg]
              intro habs
              cases habs
        · rw [if_pos (by simp [Bool.not_eq_true] at hacc; simp [hacc])]
          intro habs
          simp at habs
      · intro hna
        exact absurd ((contentTypeBool_iff req.contentType).mp hct) hna
    · rw [if_pos (by simp [Bool.not_eq_true] at hct; simp [hct])]
      constructor
      · intro _ hacc
        exact hct ((contentTypeBool_iff req.contentType).mpr hacc)
      · intro _
        rfl
  · intro hurl hm hctacc
    have hct : contentTypeHeaderOk req.contentType = true :=
      (contentTypeBool_iff req.contentType).mpr hctacc
    unfold checkRequest
    rw [if_neg (not_not_intro hurl), if_neg (not_not_intro hm),
      if_neg (by simp [hct])]
    by_cases hacc : acceptHeaderOk req.accept = true
    · rw [if_neg (by simp [hacc])]
      constructor
      · intro habs
        exfalso
        revert habs
        rcases parseIntJS (req.contentLength.getD "") with _ | n <;> dsimp only
        · intro habs
          simp only [Option.some.injEq, CheckErr.mk.injEq] at habs
          exact absurd habs.2 (by decide)
        · by_cases hneg : n < 0
          · rw [if_pos hneg]
            intro habs
            simp only [Option.some.injEq, CheckErr.mk.injEq] at habs
            exact absurd habs.2 (by decide)
          · rw [if_neg hneg]
            intro habs
            cases habs
      · intro hna
        exact absurd ((acceptBool_iff req.accept).mp hacc) hna
    · rw [if_pos (by simp [Bool.not_eq_true] at hacc; simp [hacc])]
      constructor
      · intro _ hacc2
        exact hacc ((acceptBool_iff req.accept).mpr hacc2)
      · intro _
        rfl

/-- Claim C8 witness: concrete requests hitting each validator outcome —
a wrong path is 404, a GET is 405, a `text/json` content type is 415, and
an `Accept: text/html` with a good content type is 400 with the fixed
diagnostic; while a parameter-qualified content type together with a
comma-separated accept list passes both checks. -/
theorem claim8_theorem_witness :
    checkRequest ⟨"/other", "POST", some "application/json",
        some "application/json", some "2"⟩ "/" = some ⟨404, none⟩
    ∧ checkRequest ⟨"/", "GET", some "application/json",
        some "application/json", some "2"⟩ "/" = some ⟨405, none⟩
    ∧ checkRequest ⟨"/", "POST", some "text/json",
        some "application/json", some "2"⟩ "/" = some ⟨415, none⟩
    ∧ checkRequest ⟨"/", "POST", some "application/json; charset=utf-8",
        some "text/html", some "2"⟩ "/"
        = some ⟨400, some INVALID_ACCEPT_HEADER_MSG⟩
    ∧ checkRequest (sampleHttpReq "2") "/" = none := by
  refine ⟨?_, ?_, ?_, ?_, by decide⟩
  · exact (claim8_theorem _ "/").1 (by decide)
  · exact (claim8_theorem _ "/").2.1 rfl (by decide)
  · refine ((claim8_theorem _ "/").2.2.1 rfl rfl).mpr ?_
    rintro ⟨s, hs, hv⟩
    cases hs
    revert hv
    decide
  · refine ((claim8_theorem _ "/").2.2.2 rfl rfl
      ⟨"application/json; charset=utf-8", rfl, Or.inr (by decide)⟩).mpr ?_
    rintro ⟨s, hs, hv⟩
    cases hs
    revert hv
    decide

/-! ## Claim C9 -/

/-- Claim C9: once the header checks pass, the streamed chunks are
concatenated in full and the accumulated body's length is compared with
the integer declared in `Content-Length`: on mismatch the server answers
400 with the fixed diagnostic, independently of the parser and of any
JSON-RPC processing; and the parser is only ever consulted on the full
concatenation — two parsers agreeing there yield identical outcomes. -/
theorem claim9_theorem (methods : Registry) (path : String)
    (jsonParse jsonParse2 : String → Except String JSValue)
    (req : HttpReq) (chunks : List String)
    (hcheck : checkRequest req path = none) :
    (parseIntJS (req.contentLength.getD "")
        ≠ some ((String.join chunks).length : Int) →
      reqHandler methods path jsonParse req chunks
        = .httpError 400 (some INVALID_CONTENT_LENGTH_MSG))
    ∧ (jsonParse (String.join chunks) = jsonParse2 (String.join chunks) →
      reqHandler methods path jsonParse req chunks
        = reqHandler methods path jsonParse2 req chunks) := by
  constructor
  · intro hbad
    unfold reqHandler
    rw [hcheck]
    dsimp only
    rw [if_pos hbad]
  · intro hagree
    unfold reqHandler
    rw [hcheck]
    dsimp only
    by_cases hlen : parseIntJS (req.contentLength.getD "")
        ≠ some ((String.join chunks).length : Int)
    · rw [if_pos hlen, if_pos hlen]
    · rw [if_neg hlen, if_neg hlen, hagree]

/-- Claim C9 witness: a well-formed request declaring `Content-Length: 5`
whose accumulated body is the 7-character string `nonjson` is answered
400 with the fixed diagnostic and no JSON-RPC processing, via the claim
theorem. -/
theorem claim9_theorem_witness :
    reqHandler sampleRegistry "/" failingParser (sampleHttpReq "5") ["non", "json"]
      = .httpError 400 (some INVALID_CONTENT_LENGTH_MSG) :=
  (claim9_theorem sampleRegistry "/" failingParser emptyArrayParser
    (sampleHttpReq "5") ["non", "json"] (by decide)).1 (by decide)

end HttpJsonRpc
